import Mathlib

/-!
Verification of the Web-World-Models repository against its specification.

The development shallowly embeds the deterministic cores of the three
bundled applications:

* `Spire` — the roguelike deckbuilder (data model, content sanitizer,
  shop rarity roll, combat engine fragments, relic trigger processor,
  draw/hand pile mechanics, mock content fallback);
* `Alchemy` — the falling-sand sandbox (reaction queue/cache discipline,
  reaction-discovery post-processing with its growth clamp);
* `Voyager` — the solar-system explorer (narration fallback table).

JavaScript numbers are embedded as `Int` (or `ℚ` where the source
computes with non-integral constants); `Option` models `undefined`/`NaN`
where a computation can fail.  Each definition is translated from the
corresponding source function and carries a reference to it.
-/

namespace Spire

/-! ### String and JS number helpers

The Lean core string functions (`String.splitOn`, `String.trim`, …) are
not kernel-reducible, so the embedding re-implements the handful of
string operations the source uses as structural recursion over the
underlying character list.  The sanitizer and the combat engine funnel
model output through `Number(...)`, `parseInt(...)` and the `||` / `??`
operators; those coercions are embedded explicitly. -/

/-- ASCII whitespace, the only kind appearing in this codebase's data. -/
def isSpaceChar (c : Char) : Bool :=
  c = ' ' ∨ c = '\t' ∨ c = '\n' ∨ c = '\r'

/-- JS `s.trim()`. -/
def trimS (s : String) : String :=
  String.mk (((s.data.dropWhile isSpaceChar).reverse.dropWhile isSpaceChar).reverse)

/-- Leading-whitespace skip used by JS `parseInt`. -/
def trimLeftS (s : String) : String :=
  String.mk (s.data.dropWhile isSpaceChar)

/-- ASCII lower-casing of one character (JS `toLowerCase` on the ASCII
tokens this code handles). -/
def lowerChar (c : Char) : Char :=
  if 'A' ≤ c ∧ c ≤ 'Z' then Char.ofNat (c.toNat + 32) else c

/-- ASCII upper-casing of one character. -/
def upperChar (c : Char) : Char :=
  if 'a' ≤ c ∧ c ≤ 'z' then Char.ofNat (c.toNat - 32) else c

/-- JS `s.toLowerCase()`. -/
def toLowerS (s : String) : String := String.mk (s.data.map lowerChar)

/-- JS `s.toUpperCase()`. -/
def toUpperS (s : String) : String := String.mk (s.data.map upperChar)

/-- Split a character list at every occurrence of `sep`; the accumulator
holds the current field reversed. -/
def splitCharAux (sep : Char) : List Char → List Char → List (List Char)
  | [], acc => [acc.reverse]
  | c :: rest, acc =>
    if c = sep then acc.reverse :: splitCharAux sep rest []
    else splitCharAux sep rest (c :: acc)

/-- JS `s.split(sep)` for a one-character separator (the only kind this
codebase uses: `'_'` and `','`).  `"".split(sep)` is `[""]`. -/
def splitOnChar (sep : Char) (s : String) : List String :=
  (splitCharAux sep s.data []).map String.mk

/-- The decimal digit character for `d ≤ 9`. -/
def digitChar (d : Nat) : Char :=
  if d = 0 then '0' else if d = 1 then '1' else if d = 2 then '2' else if d = 3 then '3'
  else if d = 4 then '4' else if d = 5 then '5' else if d = 6 then '6' else if d = 7 then '7'
  else if d = 8 then '8' else '9'

/-- Decimal digits of `n` (fuel-based; `fuel = n` always suffices). -/
def natToStrAux : Nat → Nat → List Char
  | 0, _ => []
  | fuel + 1, n => if n = 0 then [] else natToStrAux fuel (n / 10) ++ [digitChar (n % 10)]

/-- Decimal rendering of a natural number. -/
def natToStr (n : Nat) : String :=
  if n = 0 then "0" else String.mk (natToStrAux n n)

/-- JS template-literal rendering `${x}` of an integer-valued number. -/
def intToStr (i : Int) : String :=
  if i < 0 then "-" ++ natToStr i.natAbs else natToStr i.toNat

/-- Numeric value of a list of decimal digits. -/
def digitsVal (cs : List Char) : Nat :=
  cs.foldl (fun acc c => acc * 10 + (c.toNat - 48)) 0

/-- JS `Number(s)` on the integer-literal strings this codebase feeds it.
`none` models `NaN` (non-numeric input); the token grammar only ever
produces and consumes whole numbers, so non-integral numerics do not
arise. `Number("")` is `0` in JS. -/
def jsNumberOfString (s : String) : Option Int :=
  let t := trimS s
  if t = "" then some 0
  else
    match t.data with
    | '-' :: rest =>
      if rest ≠ [] ∧ rest.all Char.isDigit then some (-(digitsVal rest : Int)) else none
    | cs => if cs.all Char.isDigit then some (digitsVal cs) else none

/-- Longest leading run of decimal digits, `none` if there is none
(JS `parseInt` then yields `NaN`). -/
def leadingNat (cs : List Char) : Option Nat :=
  let ds := cs.takeWhile Char.isDigit
  if ds.isEmpty then none else some (digitsVal ds)

/-- JS `parseInt(s)`: skip leading whitespace, optional sign, then the
longest run of digits; `none` models `NaN`. -/
def jsParseInt (s : String) : Option Int :=
  match (trimLeftS s).data with
  | '-' :: rest => (leadingNat rest).map (fun n => -(n : Int))
  | '+' :: rest => (leadingNat rest).map (fun n => (n : Int))
  | cs => (leadingNat cs).map (fun n => (n : Int))

/-- JS `x || dflt` on an optional number: `undefined`, `NaN` and `0` are
falsy. -/
def jsOr (v : Option Int) (dflt : Int) : Int :=
  match v with
  | some x => if x = 0 then dflt else x
  | none => dflt

/-- JS array access `parts[i]` used inside a template literal: a missing
entry prints as the string `"undefined"` (and compares unequal to every
token the grammar recognises, exactly as `undefined` does). -/
def partStr (parts : List String) (i : Nat) : String :=
  parts.getD i "undefined"

/-- JS `parts[i] || dflt`: a missing entry and the empty string are both
falsy. -/
def partOr (parts : List String) (i : Nat) (dflt : String) : String :=
  let s := parts.getD i ""
  if s = "" then dflt else s

/-- JS `parts[i] ?? d` fed to `Number(...)`: only a *missing* entry takes
the (numeric) default. From `geminiService.ts` call sites. -/
def numPartOr (parts : List String) (i : Nat) (dflt : Int) : Option Int :=
  match parts[i]? with
  | some s => jsNumberOfString s
  | none => some dflt

/-- `clampNumber` from `services/geminiService.ts` (deckbuilder): coerce
to a number, substitute `fallback` for non-finite input, then clamp as
`Math.min(max, Math.max(min, num))`. -/
def clampNumber (value : Option Int) (lo hi fallback : Int) : Int :=
  match value with
  | none => fallback
  | some num => min hi (max lo num)

/-! ### Deckbuilder data model (`types.ts`, `constants.ts`) -/

inductive CardType where
  | ATTACK
  | SKILL
  | POWER
deriving DecidableEq, Repr

inductive CardRarity where
  | COMMON
  | RARE
  | LEGENDARY
deriving DecidableEq, Repr

/-- The string value of the `CardType` enum (`types.ts` uses string
enums, so `card.type` compares against strings like `'ATTACK'`). -/
def cardTypeStr : CardType → String
  | CardType.ATTACK => "ATTACK"
  | CardType.SKILL => "SKILL"
  | CardType.POWER => "POWER"

/-- `ICard` from `types.ts`. Optional numeric fields model the `?:`
members. -/
structure ICard where
  id : String
  name : String
  type : CardType
  rarity : CardRarity
  cost : Int
  damage : Option Int := none
  block : Option Int := none
  description : String
  specialEffect : Option String := none
  emoji : String := "🃏"
  exhaust : Bool := false
  ethereal : Bool := false
  innate : Bool := false
  retain : Bool := false
  multiHit : Option Int := none
  price : Option Int := none
deriving DecidableEq, Repr

/-- `createStrike` from `constants.ts`. -/
def createStrike (id : String) : ICard :=
  { id := "strike-" ++ id
    name := "Strike"
    type := CardType.ATTACK
    rarity := CardRarity.COMMON
    cost := 1
    damage := some 6
    description := "Deal 6 damage."
    emoji := "🗡️" }

/-- `createDefend` from `constants.ts`. -/
def createDefend (id : String) : ICard :=
  { id := "defend-" ++ id
    name := "Defend"
    type := CardType.SKILL
    rarity := CardRarity.COMMON
    cost := 1
    block := some 5
    description := "Gain 5 Block."
    emoji := "🛡️" }

def INITIAL_ENERGY : Int := 3
def CARDS_PER_TURN : Int := 3
def INITIAL_HAND_SIZE : Int := 5
def MAX_HAND_SIZE : Nat := 10
def STARTING_GOLD : Int := 99

/-! ### Shop rarity roll (`geminiService.ts`, lines 26–43)

These computations mix the non-integral literals `0.02`, `0.15`, `0.22`,
`0.55`, so they are embedded over `ℚ`. -/

structure RarityChances where
  common : ℚ
  rare : ℚ
  legendary : ℚ
deriving DecidableEq, Repr

/-- `clamp01` from `geminiService.ts`. -/
def clamp01 (value : ℚ) : ℚ := min 1 (max 0 value)

/-- `lerp` from `geminiService.ts`. -/
def lerp (a b t : ℚ) : ℚ := a + (b - a) * t

/-- `getShopRarityChances` from `geminiService.ts`. -/
def getShopRarityChances (level : ℚ) : RarityChances :=
  let t := clamp01 ((level - 1) / 20)
  let legendary := lerp 0.02 0.15 t
  let rare := lerp 0.22 0.55 t
  let common := max 0 (1 - legendary - rare)
  { common := common, rare := rare, legendary := legendary }

/-- `rollShopCardRarity` from `geminiService.ts`, with the
`Math.random()` draw made an explicit `roll` argument. -/
def rollShopCardRarity (level roll : ℚ) : CardRarity :=
  let c := getShopRarityChances level
  if roll < c.legendary then CardRarity.LEGENDARY
  else if roll < c.legendary + c.rare then CardRarity.RARE
  else CardRarity.COMMON

/-! ### Special-effect token sanitizer (`geminiService.ts`, lines 50–110) -/

def ALLOWED_FETCH_SOURCES : List String := ["draw", "discard", "exhaust", "deck"]
def ALLOWED_FETCH_FILTERS : List String := ["ATTACK", "SKILL", "POWER", "ANY", "ALL"]
def ALLOWED_ENEMY_STATUS : List String :=
  ["poison", "burn", "freeze", "stun", "weak", "vulnerable"]
def ALLOWED_PLAYER_STATUS : List String :=
  ["strength", "dexterity", "frail", "reflect", "metallicize", "regen"]
def ALLOWED_RECURRING_ACTIONS : List String :=
  ["energy", "block", "heal", "draw", "damage", "poison", "weak", "vulnerable",
   "freeze", "burn", "regen", "metallicize", "plates"]

/-- `sanitizeEffectToken` from `geminiService.ts`. Returns the
canonicalised token, or `none` when the token is rejected. -/
def sanitizeEffectToken (raw : String) : Option String :=
  let effect := toLowerS (trimS raw)
  if effect = "" then none
  else
    let parts := ((splitOnChar '_' effect).map trimS).filter (fun p => p ≠ "")
    if parts.isEmpty then none
    else
      let head := partStr parts 0
      if head = "fetch" ∨ head = "recover" then
        let source := partStr parts 1
        if ¬ ALLOWED_FETCH_SOURCES.contains source then none
        else
          let filterRaw := toUpperS (partOr parts 2 "")
          if ALLOWED_FETCH_FILTERS.contains filterRaw then
            some (head ++ "_" ++ source ++ "_" ++ filterRaw)
          else some (head ++ "_" ++ source)
      else if ALLOWED_ENEMY_STATUS.contains head ∨ ALLOWED_PLAYER_STATUS.contains head then
        let amount := clampNumber (numPartOr parts 1 1) 1 50 1
        some (head ++ "_" ++ intToStr amount)
      else if head = "draw" ∨ head = "energy" ∨ head = "heal" ∨ head = "lifesteal" then
        let amount := clampNumber (numPartOr parts 1 0) 0 50 0
        some (head ++ "_" ++ intToStr amount)
      else if head = "self" ∧ partStr parts 1 = "damage" then
        let amount := clampNumber (numPartOr parts 2 0) 0 30 0
        some ("self_damage_" ++ intToStr amount)
      else if head = "recurring" ∨ head = "turn_start" ∨ head = "start_turn" then
        let action := partStr parts 1
        if ¬ ALLOWED_RECURRING_ACTIONS.contains action then none
        else
          let amount := clampNumber (numPartOr parts 2 1) 1 50 1
          some (head ++ "_" ++ action ++ "_" ++ intToStr amount)
      else none

/-- `sanitizeSpecialEffect` from `geminiService.ts`: comma-split, map the
token sanitizer, drop rejected tokens, rejoin; `none` models the field
becoming absent when nothing survives. -/
def sanitizeSpecialEffect (raw : String) : Option String :=
  let sanitized := (splitOnChar ',' raw).filterMap sanitizeEffectToken
  if sanitized.isEmpty then none else some (String.intercalate "," sanitized)

/-! ### Combat state (`App.tsx`)

`statuses` is a string-keyed counter dictionary in the source; every
read/write site uses one of the eleven fixed names below, so the
embedding gives each its own field. -/

structure Statuses where
  strength : Int := 0
  dexterity : Int := 0
  vulnerable : Int := 0
  weak : Int := 0
  frail : Int := 0
  poison : Int := 0
  burn : Int := 0
  freeze : Int := 0
  reflect : Int := 0
  metallicize : Int := 0
  regen : Int := 0
deriving DecidableEq, Repr

/-- All status counters are non-negative. -/
def Statuses.NonNeg (s : Statuses) : Prop :=
  0 ≤ s.strength ∧ 0 ≤ s.dexterity ∧ 0 ≤ s.vulnerable ∧ 0 ≤ s.weak ∧ 0 ≤ s.frail ∧
    0 ≤ s.poison ∧ 0 ≤ s.burn ∧ 0 ≤ s.freeze ∧ 0 ≤ s.reflect ∧ 0 ≤ s.metallicize ∧
    0 ≤ s.regen

instance (s : Statuses) : Decidable s.NonNeg := by
  unfold Statuses.NonNeg
  infer_instance

/-- The five combat card piles of `IPlayer` (`types.ts`): `deck` is the
permanent collection, the other four track one combat. -/
structure PlayerPiles where
  deck : List ICard := []
  hand : List ICard := []
  drawPile : List ICard := []
  discardPile : List ICard := []
  exhaustPile : List ICard := []
deriving DecidableEq, Repr

/-- The player entity (`IPlayer` in `types.ts`), with relics/powers kept
outside (the relic processor below is stated per relic token). -/
structure PlayerCombat where
  maxHp : Int := 60
  currentHp : Int := 60
  block : Int := 0
  statuses : Statuses := {}
  gold : Int := 99
  energy : Int := 3
  maxEnergy : Int := 3
  piles : PlayerPiles := {}
deriving DecidableEq, Repr

/-- The enemy entity (`IEnemy` in `types.ts`). -/
structure EnemyCombat where
  maxHp : Int := 20
  currentHp : Int := 20
  block : Int := 0
  statuses : Statuses := {}
  nextMoveDamage : Int := 5
deriving DecidableEq, Repr

structure CombatState where
  player : PlayerCombat := {}
  enemy : EnemyCombat := {}
deriving DecidableEq, Repr

/-! ### Drawing (`App.tsx` `drawCards`, lines 527–550)

The discard reshuffle (`[...newDiscard].sort(() => Math.random() - 0.5)`)
is modelled by an explicit `shuffle` parameter; nothing below constrains
it. -/

/-- One pass of the `for` loop body in `drawCards`: each iteration first
reshuffles the discard pile into the draw pile if the draw pile is empty
(breaking if both are empty), then pops the last card of the draw pile
into the hand. -/
def drawLoop (shuffle : List ICard → List ICard) :
    Nat → List ICard → List ICard → List ICard → List ICard × List ICard × List ICard
  | 0, hand, draw, discard => (hand, draw, discard)
  | n + 1, hand, draw, discard =>
    if draw.isEmpty then
      if discard.isEmpty then (hand, draw, discard)
      else
        let draw2 := shuffle discard
        match draw2.getLast? with
        | some c => drawLoop shuffle n (hand ++ [c]) draw2.dropLast []
        | none => drawLoop shuffle n hand draw2 []
    else
      match draw.getLast? with
      | some c => drawLoop shuffle n (hand ++ [c]) draw.dropLast discard
      | none => drawLoop shuffle n hand draw discard

/-- `drawCards` from `App.tsx`: no-op at or above the hand cap, otherwise
draw `min count (MAX_HAND_SIZE - hand.length)` cards. -/
def drawCards (shuffle : List ICard → List ICard) (count : Int) (p : PlayerPiles) :
    PlayerPiles :=
  if p.hand.length ≥ MAX_HAND_SIZE then p
  else
    let cardsNeeded := min count ((MAX_HAND_SIZE : Int) - p.hand.length)
    if cardsNeeded ≤ 0 then p
    else
      let r := drawLoop shuffle cardsNeeded.toNat p.hand p.drawPile p.discardPile
      { p with hand := r.1, drawPile := r.2.1, discardPile := r.2.2 }

/-! ### Playing a card: damage phase (`App.tsx` `playCard`, lines 690–711) -/

/-- Per-hit damage: `(card.damage || 0) + strength`, then `×1.5` floored
if the enemy has vulnerable stacks, then `×0.75` floored if the player is
weak.  `Math.floor(x * 1.5) = ⌊3x/2⌋` and `Math.floor(x * 0.75) = ⌊3x/4⌋`
exactly (both multipliers are dyadic, so the JS float products are
exact). Statuses are read once from the render snapshot, so all hits of a
multi-hit card share this value. -/
def attackDamagePerHit (card : ICard) (playerStatuses enemyStatuses : Statuses) : Int :=
  let dmg := jsOr card.damage 0 + playerStatuses.strength
  let dmg := if enemyStatuses.vulnerable > 0 then Int.fdiv (dmg * 3) 2 else dmg
  let dmg := if playerStatuses.weak > 0 then Int.fdiv (dmg * 3) 4 else dmg
  dmg

/-- Block absorption for one hit: block soaks damage 1:1, the excess hits
HP, HP floored at 0 (`setEnemy` updater inside the hit loop). -/
def applyHitToEnemy (dmg : Int) (e : EnemyCombat) : EnemyCombat :=
  if e.block ≥ dmg then
    { e with block := e.block - dmg, currentHp := max 0 e.currentHp }
  else
    { e with block := 0, currentHp := max 0 (e.currentHp - (dmg - e.block)) }

/-- The damage section of `playCard`: guarded by
`card.type === ATTACK || (card.damage && card.damage > 0)`, iterated
`card.multiHit || 1` times. -/
def playCardAttackPhase (card : ICard) (p : PlayerCombat) (e : EnemyCombat) : EnemyCombat :=
  if card.type = CardType.ATTACK ∨ jsOr card.damage 0 > 0 then
    let hits := (jsOr card.multiHit 1).toNat
    let dmg := attackDamagePerHit card p.statuses e.statuses
    (applyHitToEnemy dmg)^[hits] e
  else e

/-! ### Status application (`App.tsx` `applyStatusEffect`, lines 641–660) -/

/-- Add `amount` to the counter named `realType` (the list-membership
branch of the `applyStatusEffect` setter). Unknown names leave the record
unchanged — the JS dictionary write is only reached for the listed
names. -/
def bumpStatus (s : Statuses) (realType : String) (amount : Int) : Statuses :=
  if realType = "poison" then { s with poison := s.poison + amount }
  else if realType = "burn" then { s with burn := s.burn + amount }
  else if realType = "strength" then { s with strength := s.strength + amount }
  else if realType = "dexterity" then { s with dexterity := s.dexterity + amount }
  else if realType = "vulnerable" then { s with vulnerable := s.vulnerable + amount }
  else if realType = "weak" then { s with weak := s.weak + amount }
  else if realType = "frail" then { s with frail := s.frail + amount }
  else if realType = "reflect" then { s with reflect := s.reflect + amount }
  else if realType = "metallicize" then { s with metallicize := s.metallicize + amount }
  else if realType = "regen" then { s with regen := s.regen + amount }
  else s

def STACKABLE_STATUS_NAMES : List String :=
  ["poison", "burn", "strength", "dexterity", "vulnerable", "weak", "frail",
   "reflect", "metallicize", "regen"]

/-- The amount segment of a status token inside `applyStatusEffect`:
`parseInt(parts[parts.length - 1] || '1')`. -/
def parsedAmount (effectString : String) : Option Int :=
  let parts := splitOnChar '_' effectString
  jsParseInt (partOr parts (parts.length - 1) "1")

/-- `applyStatusEffect` from `App.tsx`, acting on the target's status
record: parse the token (`recurring_`-prefixed tokens shift the type by
one segment), force the freeze flag to 1 for freeze/stun, otherwise add
the amount to the named counter.  `none` models the counter being set to
`NaN` (unparsable amount on a stackable status) — unreachable for
sanitizer-produced tokens. -/
def applyStatusEffect (sts : Statuses) (effectString : String) : Option Statuses :=
  let parts := splitOnChar '_' effectString
  let ty := partStr parts 0
  let realType := if ty = "recurring" then partStr parts 1 else ty
  let amount := parsedAmount effectString
  if realType = "freeze" ∨ realType = "stun" then some { sts with freeze := 1 }
  else if STACKABLE_STATUS_NAMES.contains realType then
    amount.map (fun a => bumpStatus sts realType a)
  else some sts

/-! ### Relic trigger processor (`App.tsx` `processRelicTrigger`, lines 285–378) -/

/-- The decoded trigger/action/amount of one relic `effectType` token.
`rAmount = none` models `parseInt` returning `NaN`. -/
structure RelicDecoded where
  rTrigger : String
  rAction : String
  rAmount : Option Int
deriving DecidableEq, Repr

/-- The decode phase of `processRelicTrigger` for one relic: two-word
trigger prefixes, the `apply` action shift, and the legacy
no-trigger-prefix path that assumes `start_combat` (only when the
requested trigger is `start_combat`). -/
def decodeRelic (trigger effectType : String) : RelicDecoded :=
  let parts := splitOnChar '_' effectType
  let d : RelicDecoded :=
    { rTrigger := partStr parts 0
      rAction := partStr parts 1
      rAmount := jsParseInt (partOr parts 2 "1") }
  if ["start", "end", "turn", "play", "shop"].contains (partStr parts 0) then
    let rTrigger := partStr parts 0 ++ "_" ++ partStr parts 1
    if partStr parts 2 = "apply" then
      { rTrigger := rTrigger
        rAction := partStr parts 3
        rAmount := jsParseInt (partOr parts 4 "1") }
    else
      { rTrigger := rTrigger
        rAction := partStr parts 2
        rAmount := jsParseInt (partOr parts 3 "1") }
  else if trigger = "start_combat" then
    if partStr parts 0 = "apply" then
      { rTrigger := "start_combat"
        rAction := partStr parts 1
        rAmount := jsParseInt (partOr parts 2 "1") }
    else
      { rTrigger := "start_combat"
        rAction := partStr parts 0
        rAmount := jsParseInt (partOr parts 1 "1") }
  else d

/-- The action names the `switch (rAction)` in `processRelicTrigger`
actually executes; any other action falls through with no state change. -/
def KNOWN_RELIC_ACTIONS : List String :=
  ["heal", "block", "damage", "energy", "draw", "strength", "dexterity",
   "reflect", "metallicize", "regen", "poison", "weak", "vulnerable"]

/-- The `switch (rAction)` body of `processRelicTrigger`. -/
def executeRelicAction (shuffle : List ICard → List ICard) (rAction : String)
    (rAmount : Int) (st : CombatState) : CombatState :=
  if rAction = "heal" then
    { st with player :=
        { st.player with currentHp := min st.player.maxHp (st.player.currentHp + rAmount) } }
  else if rAction = "block" then
    { st with player := { st.player with block := st.player.block + rAmount } }
  else if rAction = "damage" then
    { st with enemy := { st.enemy with currentHp := max 0 (st.enemy.currentHp - rAmount) } }
  else if rAction = "energy" then
    { st with player := { st.player with energy := st.player.energy + rAmount } }
  else if rAction = "draw" then
    { st with player := { st.player with piles := drawCards shuffle rAmount st.player.piles } }
  else if rAction = "strength" ∨ rAction = "dexterity" ∨ rAction = "reflect" ∨
      rAction = "metallicize" ∨ rAction = "regen" then
    { st with player := { st.player with statuses := bumpStatus st.player.statuses rAction rAmount } }
  else if rAction = "poison" ∨ rAction = "weak" ∨ rAction = "vulnerable" then
    { st with enemy := { st.enemy with statuses := bumpStatus st.enemy.statuses rAction rAmount } }
  else st

/-- One iteration of `processRelicTrigger`'s `forEach` over the owned
relics: decode the relic token, skip it when the decoded trigger does not
match the requested one (or, for `play_*` triggers with a context card,
when the card type does not match), then run the action.  `none` models a
`NaN` amount reaching an executed action. -/
def processOneRelic (shuffle : List ICard → List ICard) (trigger : String)
    (contextCard : Option ICard) (effectType : String) (st : CombatState) :
    Option CombatState :=
  let dec := decodeRelic trigger effectType
  if trigger ≠ dec.rTrigger then some st
  else
    let blockedByType : Bool :=
      "play_".data.isPrefixOf trigger.data &&
        match contextCard with
        | some card =>
          cardTypeStr card.type != toUpperS (partStr (splitOnChar '_' trigger) 1)
        | none => false
    if blockedByType then some st
    else
      match dec.rAmount with
      | some a => some (executeRelicAction shuffle dec.rAction a st)
      | none => if KNOWN_RELIC_ACTIONS.contains dec.rAction then none else some st

/-! ### End-of-round status decay (`App.tsx` `endTurn`, lines 888–909)

Each decrement is guarded by a JS truthiness check
(`if (s['vulnerable']) s['vulnerable']--`), so a counter at 0 is left
untouched. -/

/-- The player-side decrement block inside `endTurn`. -/
def playerTurnEndDecay (s : Statuses) : Statuses :=
  let s := if s.vulnerable ≠ 0 then { s with vulnerable := s.vulnerable - 1 } else s
  let s := if s.weak ≠ 0 then { s with weak := s.weak - 1 } else s
  if s.frail ≠ 0 then { s with frail := s.frail - 1 } else s

/-- The enemy-side decrement block inside `endTurn`. -/
def enemyTurnEndDecay (s : Statuses) : Statuses :=
  let s := if s.poison ≠ 0 then { s with poison := s.poison - 1 } else s
  let s := if s.vulnerable ≠ 0 then { s with vulnerable := s.vulnerable - 1 } else s
  if s.weak ≠ 0 then { s with weak := s.weak - 1 } else s

/-! ### Hand/pile mechanics of `playCard` and `endTurn` (`App.tsx`) -/

/-- Which pile the played card moves to after resolution (`playCard`
lines 785–796): exhaust-flagged cards to the exhaust pile, POWER cards
nowhere, everything else to the discard pile. -/
inductive PlayDest where
  | exhaust
  | power
  | discard
deriving DecidableEq, Repr

/-- The fetch/recover source piles (`SelectionState.source`). -/
inductive FetchSource where
  | draw
  | discard
  | exhaust
  | deck
deriving DecidableEq, Repr

/-- Pile bookkeeping of one `playCard` call: any `draw_N` special-effect
tokens and relic-triggered draws resolve first (the played card is still
in hand at that point, since the `splice` happens last), then the card at
`index` is removed from hand and routed by `dest`.  `draws` lists the
draw counts issued during effect resolution. -/
def playCardPiles (shuffle : List ICard → List ICard) (index : Nat) (draws : List Int)
    (dest : PlayDest) (p : PlayerPiles) : PlayerPiles :=
  let card := p.hand[index]?
  let p1 := draws.foldl (fun acc n => drawCards shuffle n acc) p
  let newHand := p1.hand.eraseIdx index
  match dest, card with
  | PlayDest.exhaust, some c =>
    { p1 with hand := newHand, exhaustPile := p1.exhaustPile ++ [c] }
  | PlayDest.discard, some c =>
    { p1 with hand := newHand, discardPile := p1.discardPile ++ [c] }
  | _, _ => { p1 with hand := newHand }

/-- The `onSelect` confirmation of a fetch/recover effect (`playCard`
lines 741–756): the chosen card is filtered out of the source pile by id
and appended to the hand.  Note the source quirk: a `deck`-sourced fetch
removes the card from the *draw* pile (`targetPile = p.drawPile` and the
update writes `drawPile`). -/
def fetchConfirm (source : FetchSource) (selectedCard : ICard) (p : PlayerPiles) :
    PlayerPiles :=
  match source with
  | FetchSource.draw =>
    { p with drawPile := p.drawPile.filter (fun c => c.id != selectedCard.id),
             hand := p.hand ++ [selectedCard] }
  | FetchSource.discard =>
    { p with discardPile := p.discardPile.filter (fun c => c.id != selectedCard.id),
             hand := p.hand ++ [selectedCard] }
  | FetchSource.exhaust =>
    { p with exhaustPile := p.exhaustPile.filter (fun c => c.id != selectedCard.id),
             hand := p.hand ++ [selectedCard] }
  | FetchSource.deck =>
    { p with drawPile := p.drawPile.filter (fun c => c.id != selectedCard.id),
             hand := p.hand ++ [selectedCard] }

/-- The ethereal sweep at end of turn (`endTurn` lines 814–832): ethereal
hand cards move to the exhaust pile, the rest of the hand is retained. -/
def endTurnEtherealSweep (p : PlayerPiles) : PlayerPiles :=
  { p with hand := p.hand.filter (fun c => !c.ethereal),
           exhaustPile := p.exhaustPile ++ p.hand.filter (fun c => c.ethereal) }

/-- The hand-affecting transitions of the combat orchestrator.  `draw`
covers every `drawCards` call site (turn start, relic and power draws);
`reset` is the pile reset of `startBattle` (the shuffled arrangement `d`
of the deck is arbitrary here); `play` is a card play without a
fetch effect; `playFetch` is a card play whose fetch/recover selection is
later confirmed — the End-Turn button and the hand are disabled while the
selection overlay is open, so no other hand-affecting action can
interleave; `endTurn` is the ethereal sweep. -/
inductive HandStep (shuffle : List ICard → List ICard) : PlayerPiles → PlayerPiles → Prop
  | draw (p : PlayerPiles) (n : Int) : HandStep shuffle p (drawCards shuffle n p)
  | reset (p : PlayerPiles) (d : List ICard) :
      HandStep shuffle p
        { deck := p.deck, hand := [], drawPile := d, discardPile := [], exhaustPile := [] }
  | play (p : PlayerPiles) (i : Nat) (draws : List Int) (dest : PlayDest)
      (h : i < p.hand.length) :
      HandStep shuffle p (playCardPiles shuffle i draws dest p)
  | playFetch (p : PlayerPiles) (i : Nat) (draws : List Int) (dest : PlayDest)
      (src : FetchSource) (c : ICard) (h : i < p.hand.length) :
      HandStep shuffle p (fetchConfirm src c (playCardPiles shuffle i draws dest p))
  | endTurn (p : PlayerPiles) : HandStep shuffle p (endTurnEtherealSweep p)

/-- Pile states reachable from the start-of-run state (empty hand). -/
def ReachablePiles (shuffle : List ICard → List ICard) (p : PlayerPiles) : Prop :=
  Relation.ReflTransGen (HandStep shuffle) {} p

/-! ### Mock reward cards (`geminiService.ts`, lines 465–478)

`generateRewardCards` falls back to `mockGenerateCards(level)` on a
missing API key (line 242), on an unparsable/non-JSON response (the
`JSON.parse` guard yields `[]`, which sanitizes to `[]`, line 292), and
on a thrown request error (line 296).  `Date.now()` is the `now`
parameter. -/

def mockGenerateCards (level : Int) (now : Nat) : List ICard :=
  [ { id := "mock-1-" ++ natToStr now
      name := "Venom Strike"
      type := CardType.ATTACK
      rarity := CardRarity.COMMON
      cost := 1
      damage := some (4 + level)
      specialEffect := some "poison_4"
      description := "Deal " ++ intToStr (4 + level) ++ " dmg. Apply 4 Poison."
      emoji := "🐍" },
    { id := "mock-2-" ++ natToStr now
      name := "Seeker"
      type := CardType.SKILL
      rarity := CardRarity.RARE
      cost := 0
      specialEffect := some "fetch_draw_attack"
      description := "Put an Attack from your draw pile into your hand."
      emoji := "🔭"
      exhaust := true },
    { id := "mock-3-" ++ natToStr now
      name := "Combustion"
      type := CardType.POWER
      rarity := CardRarity.RARE
      cost := 1
      specialEffect := some "burn_5"
      description := "Apply 5 Burn."
      emoji := "🔥" } ]

/-- The failure path shared by all three fallback conditions of
`generateRewardCards`. -/
def generateRewardCardsFallback (level : Int) (now : Nat) : List ICard :=
  mockGenerateCards level now

/-- A card with its level-scaled fields blanked, to state which part of
the mock pool varies with `level`. -/
def eraseLevelScaledFields (c : ICard) : ICard :=
  { c with damage := none, description := "" }

end Spire

namespace Alchemy

/-! ### Reaction queue and cache (`SandboxCanvas`, `part_003`)

The cache maps the string key `"a:b"` (ids ordered ascending) to a
resulting element id, `0` meaning a confirmed non-reaction.  The key is
embedded as the ordered pair itself; the cache as an association list
(`Map.set` overwrites in place, modelled by `cacheSet`). -/

def MAX_QUEUE_SIZE : Nat := 50
def MAX_CONCURRENT_REQUESTS : Nat := 4

/-- The unordered pair key `id1 < id2 ? `a:b` : `b:a``. -/
def reactionKey (id1 id2 : Nat) : Nat × Nat :=
  if id1 < id2 then (id1, id2) else (id2, id1)

/-- `Map.get` on the reaction cache (association-list model of the JS
`Map`). -/
def cacheLookup : List ((Nat × Nat) × Nat) → Nat × Nat → Option Nat
  | [], _ => none
  | e :: rest, k => if e.1 = k then some e.2 else cacheLookup rest k

/-- `Map.set` on the reaction cache: overwrite in place if the key is
present, append otherwise. -/
def cacheSet : List ((Nat × Nat) × Nat) → Nat × Nat → Nat → List ((Nat × Nat) × Nat)
  | [], k, v => [(k, v)]
  | e :: rest, k, v => if e.1 = k then (k, v) :: rest else e :: cacheSet rest k v

/-- `Set.add` (no duplicates). -/
def setAdd (s : List (Nat × Nat)) (k : Nat × Nat) : List (Nat × Nat) :=
  if s.contains k then s else s ++ [k]

/-- The mutable simulation state touched by the reaction-discovery
machinery: the double-buffered next material/mass grids, the cache, the
pending/awaiting-id/inflight key sets and the rate-limit flag. -/
structure SimReactState where
  cache : List ((Nat × Nat) × Nat) := []
  pendingResolution : List (Nat × Nat) := []
  inflight : List (Nat × Nat) := []
  pending : List (Nat × Nat) := []
  isRateLimited : Bool := false
  nextGrid : List Nat := []
  nextDensity : List ℚ := []
deriving DecidableEq, Repr

/-- `queueReaction` from the simulation loop (`part_003`, lines
1009–1025): equal ids are ignored; a cached positive result converts the
current cell `i` in place (`nextGrid[i] = res; nextDensity[i] = 1.0`); a
cached zero does nothing; an uncached pair is added to the pending set
when it is not awaiting an id, not inflight, not rate-limited and the
queue is below capacity. -/
def queueReaction (i : Nat) (id1 id2 : Nat) (s : SimReactState) : SimReactState :=
  if id1 = id2 then s
  else
    let key := reactionKey id1 id2
    match cacheLookup s.cache key with
    | some res =>
      if res > 0 then
        { s with nextGrid := s.nextGrid.set i res, nextDensity := s.nextDensity.set i 1 }
      else s
    | none =>
      if ¬ s.pendingResolution.contains key ∧ ¬ s.inflight.contains key ∧
          s.isRateLimited = false ∧ s.pending.length < MAX_QUEUE_SIZE then
        { s with pending := setAdd s.pending key }
      else s

/-- The cache/queue effects of the asynchronous machinery around
`queueReaction`, abstracted per key:

* `queue i id1 id2` — an adjacency check during a simulation tick;
* `drain k res` — `processReactions` picks `k` out of the pending set
  (lines 270–326): `k` is deleted from pending, skipped if already
  cached/awaiting-id/inflight, otherwise its resolution eventually writes
  `res` into the cache (`0` for "no reaction" or errors, a positive id
  for a match) or---when a brand-new element is produced---parks the name
  under `pendingResolution`;
* `drainNewElement k` — same drain but the result is a new element whose
  id is not known yet;
* `resolveId k newId` — the `useEffect` at lines 161–168 assigns the
  catalog id to a parked key;
* `seedIgnore a b` — the pre-seeded hardcoded non-reactions (lines
  177–200) write `0` for a pair key. -/
inductive SimEvent where
  | queue (i id1 id2 : Nat)
  | drain (k : Nat × Nat) (res : Nat)
  | drainNewElement (k : Nat × Nat)
  | resolveId (k : Nat × Nat) (newId : Nat)
  | seedIgnore (a b : Nat)
deriving DecidableEq, Repr

def stepEvent (s : SimReactState) : SimEvent → SimReactState
  | SimEvent.queue i id1 id2 => queueReaction i id1 id2 s
  | SimEvent.drain k res =>
    if k ∈ s.pending then
      let s1 := { s with pending := s.pending.erase k }
      if (cacheLookup s1.cache k).isSome ∨ k ∈ s1.pendingResolution ∨ k ∈ s1.inflight then s1
      else { s1 with cache := cacheSet s1.cache k res }
    else s
  | SimEvent.drainNewElement k =>
    if k ∈ s.pending then
      let s1 := { s with pending := s.pending.erase k }
      if (cacheLookup s1.cache k).isSome ∨ k ∈ s1.pendingResolution ∨ k ∈ s1.inflight then s1
      else { s1 with pendingResolution := setAdd s1.pendingResolution k }
    else s
  | SimEvent.resolveId k newId =>
    if k ∈ s.pendingResolution then
      { s with cache := cacheSet s.cache k newId,
               pendingResolution := s.pendingResolution.erase k }
    else s
  | SimEvent.seedIgnore a b => { s with cache := cacheSet s.cache (reactionKey a b) 0 }

/-- Run a sequence of events. -/
def runEvents (s : SimReactState) (evs : List SimEvent) : SimReactState :=
  evs.foldl stepEvent s

/-! ### `discoverReaction` post-processing (`AI_ALCHEMY/.../geminiService.ts`,
lines 271–392)

The network/JSON layer is abstracted into the already-parsed response:
`none` models an empty `response.text` or a `JSON.parse` failure. -/

/-- The `result` object of the reaction schema, as parsed from the model
response.  Nullable schema fields are `Option`s. -/
structure RawReactionResult where
  name : String
  color : String
  physics : String
  description : String
  growthChance : Option ℚ := none
  decayChance : Option ℚ := none
  growthStyle : Option String := none
  relatedElementId : Option ℚ := none
deriving DecidableEq, Repr

/-- The parsed top-level reaction response. -/
structure ParsedReactionResponse where
  reactionOccurred : Bool
  result : Option RawReactionResult := none
deriving DecidableEq, Repr

/-- `ReactionResult` as returned to the caller. -/
structure ReactionResult where
  name : String
  color : String
  physics : String
  description : String
  growthChance : Option ℚ := none
  decayChance : Option ℚ := none
  growthStyle : Option String := none
  relatedElementId : Option ℚ := none
deriving DecidableEq, Repr

/-- The deterministic tail of `discoverReaction` after the model response
is parsed: `null`/no-reaction answers yield `none`; otherwise the safety
clamp caps `growthChance` at `0.15` (a missing growthChance passes
through, the `typeof` guard) and the structured result is rebuilt. -/
def discoverReactionPost (parsed : Option ParsedReactionResponse) : Option ReactionResult :=
  match parsed with
  | none => none
  | some data =>
    match data.result with
    | some r =>
      if data.reactionOccurred then
        let gChance :=
          match r.growthChance with
          | some g => some (if g > 0.15 then (0.15 : ℚ) else g)
          | none => none
        some { name := r.name
               color := r.color
               physics := r.physics
               description := r.description
               growthChance := gChance
               decayChance := r.decayChance
               growthStyle := r.growthStyle
               relatedElementId := r.relatedElementId }
      else none
    | none => none

/-- A sample parsed reaction response whose proposed growthChance (0.9)
exceeds the safety clamp; used to exercise the clamp on a concrete
input. -/
def sampleOverLimitResponse : ParsedReactionResponse :=
  { reactionOccurred := true
    result := some
      { name := "Steam"
        color := "#ffffff"
        physics := "GAS"
        description := "Hot vapor."
        growthChance := some 0.9 } }

/-- The structured result `discoverReaction` builds for
`sampleOverLimitResponse`: growthChance clamped to 0.15. -/
def sampleClampedResult : ReactionResult :=
  { name := "Steam"
    color := "#ffffff"
    physics := "GAS"
    description := "Hot vapor."
    growthChance := some 0.15 }

end Alchemy

namespace Voyager

/-! ### Narration fallback (`COSMIC-VOYAGER/services/geminiService.ts`) -/

/-- `FALLBACK_DESCRIPTIONS` from the narration service: the fixed
per-body fallback paragraphs for the Sun and the eight planets. -/
def FALLBACK_DESCRIPTIONS : List (String × String) :=
  [ ("Mercury", "Mercury is the smallest planet in the Solar System and the closest to the Sun. It orbits the Sun in just 88 Earth days. \n\nFun Fact: Despite being closest to the Sun, Mercury is not the hottest planet; Venus holds that title due to its thick atmosphere."),
    ("Venus", "Venus is the second planet from the Sun and is Earth\x27s closest planetary neighbor. It has a thick, toxic atmosphere filled with carbon dioxide and shrouded in thick yellowish clouds of sulfuric acid that trap heat, causing a runaway greenhouse effect.\n\nFun Fact: Venus spins in the opposite direction (retrograde rotation) to most other planets."),
    ("Earth", "Earth is the third planet from the Sun and the only astronomical object known to harbor life. About 29% of Earth\x27s surface is land consisting of continents and islands, while the remaining 71% is covered with water.\n\nFun Fact: Earth is the only planet not named after a Greek or Roman god or goddess."),
    ("Mars", "Mars is the fourth planet from the Sun and the second-smallest planet in the Solar System, being larger than only Mercury. It is often referred to as the \x27Red Planet\x27 because the iron oxide prevalent on its surface gives it a reddish appearance.\n\nFun Fact: Mars is home to Olympus Mons, the tallest volcano and known mountain in the solar system."),
    ("Jupiter", "Jupiter is the fifth planet from the Sun and the largest in the Solar System. It is a gas giant with a mass more than two and a half times that of all the other planets in the Solar System combined, but slightly less than one-thousandth the mass of the Sun.\n\nFun Fact: Jupiter has the shortest day of all the planets, spinning around its axis in just under 10 hours."),
    ("Saturn", "Saturn is the sixth planet from the Sun and the second-largest in the Solar System, after Jupiter. It is a gas giant with an average radius of about nine and a half times that of Earth. It is famous for its prominent ring system.\n\nFun Fact: Saturn is the only planet in our solar system that is less dense than water; if there were a bathtub big enough, it would float."),
    ("Uranus", "Uranus is the seventh planet from the Sun. It has the third-largest planetary radius and fourth-largest planetary mass in the Solar System. Uranus is similar in composition to Neptune, and both have bulk chemical compositions which differ from that of the larger gas giants Jupiter and Saturn.\n\nFun Fact: Uranus rotates on its side, making it the only planet whose equator is nearly at a right angle to its orbit."),
    ("Neptune", "Neptune is the eighth and farthest-known Solar planet from the Sun. In the Solar System, it is the fourth-largest planet by diameter, the third-most-massive planet, and the densest giant planet. It is 17 times the mass of Earth.\n\nFun Fact: Neptune has the strongest winds in the solar system, reaching speeds of up to 1,300 miles per hour (2,100 km/h)."),
    ("The Sun", "The Sun is the star at the center of the Solar System. It is a nearly perfect sphere of hot plasma, heated to incandescence by nuclear fusion reactions in its core. It radiates this energy mainly as visible light, ultraviolet light, and infrared radiation.\n\nFun Fact: The Sun accounts for 99.86% of the mass in the solar system.") ]

/-- Record lookup `FALLBACK_DESCRIPTIONS[planetName]`. -/
def lookupFallback (name : String) : Option String :=
  (FALLBACK_DESCRIPTIONS.find? (fun e => e.1 = name)).map (fun e => e.2)

/-- The generic failure message of `getPlanetDetails`. -/
def genericFailureMessage : String :=
  "Communications with the Galactic Database (Gemini) are currently down. Please try again later."

/-- The `catch` branch of `getPlanetDetails` (lines 98–110), i.e. the
result when the model call fails: the per-body fallback table first, then
the caller-supplied `fallbackText` (trimmed at function entry; empty
after trimming is falsy), then the generic failure message. -/
def getPlanetDetailsOnFailure (name : String) (fallbackText : Option String) : String :=
  match lookupFallback name with
  | some d => d
  | none =>
    match fallbackText.map Spire.trimS with
    | some t => if t ≠ "" then t else genericFailureMessage
    | none => genericFailureMessage

/-- The eight planet names plus the Sun. -/
def NINE_BODIES : List String :=
  ["Mercury", "Venus", "Earth", "Mars", "Jupiter", "Saturn", "Uranus", "Neptune", "The Sun"]

end Voyager

/-! ## Theorems -/

namespace Spire

/-- C2: for every level, the shop rarity chances are
`t = clamp01((level-1)/20)`, `legendary = lerp(0.02,0.15,t)`,
`rare = lerp(0.22,0.55,t)`, `common = max 0 (1 - legendary - rare)`;
level 1 yields 0.02/0.22/0.76, level 21 yields 0.15/0.55/0.30, level 11
yields 0.085/0.385/0.53; and a roll selects legendary below
`legendary`, else rare below `legendary + rare`, else common. -/
theorem shop_rarity_spec (level roll : ℚ) :
    (getShopRarityChances level).legendary = lerp 0.02 0.15 (clamp01 ((level - 1) / 20)) ∧
    (getShopRarityChances level).rare = lerp 0.22 0.55 (clamp01 ((level - 1) / 20)) ∧
    (getShopRarityChances level).common =
      max 0 (1 - (getShopRarityChances level).legendary - (getShopRarityChances level).rare) ∧
    getShopRarityChances 1 = { common := 0.76, rare := 0.22, legendary := 0.02 } ∧
    getShopRarityChances 21 = { common := 0.30, rare := 0.55, legendary := 0.15 } ∧
    getShopRarityChances 11 = { common := 0.53, rare := 0.385, legendary := 0.085 } ∧
    (rollShopCardRarity level roll = CardRarity.LEGENDARY ↔
      roll < (getShopRarityChances level).legendary) ∧
    (rollShopCardRarity level roll = CardRarity.RARE ↔
      ¬ roll < (getShopRarityChances level).legendary ∧
        roll < (getShopRarityChances level).legendary + (getShopRarityChances level).rare) ∧
    (rollShopCardRarity level roll = CardRarity.COMMON ↔
      ¬ roll < (getShopRarityChances level).legendary ∧
        ¬ roll < (getShopRarityChances level).legendary + (getShopRarityChances level).rare) := by
  refine ⟨rfl, rfl, rfl, ?_, ?_, ?_, ?_, ?_, ?_⟩
  · simp only [getShopRarityChances, clamp01, lerp, RarityChances.mk.injEq]
    norm_num
  · simp only [getShopRarityChances, clamp01, lerp, RarityChances.mk.injEq]
    norm_num
  · simp only [getShopRarityChances, clamp01, lerp, RarityChances.mk.injEq]
    norm_num
  · simp only [rollShopCardRarity]
    split_ifs with h1 h2 <;> simp_all
  · simp only [rollShopCardRarity]
    split_ifs with h1 h2 <;> simp_all
  · simp only [rollShopCardRarity]
    split_ifs with h1 h2 <;> simp_all

/-- C5 counterexample: the sanitizer does *not* return the all-lowercase
string the claim states, because the fetch type filter is upper-cased. -/
theorem sanitize_special_effect_counterexample :
    sanitizeSpecialEffect "POISON_4,fetch_draw_attack,bogus_token,energy_2" ≠
      some "poison_4,fetch_draw_attack,energy_2" := by decide

/-- C5 amended: sanitizing
`"POISON_4,fetch_draw_attack,bogus_token,energy_2"` yields exactly
`"poison_4,fetch_draw_ATTACK,energy_2"` — the unrecognized token is
dropped, the recognized tokens are canonicalized (the fetch filter
segment to upper case), and their order is preserved. -/
theorem sanitize_special_effect_canonical :
    sanitizeSpecialEffect "POISON_4,fetch_draw_attack,bogus_token,energy_2" =
      some "poison_4,fetch_draw_ATTACK,energy_2" := by decide

/-- C6 counterexample: the mock fallback pool of `generateRewardCards`
contains three cards, not four. -/
theorem mock_reward_counterexample :
    (generateRewardCardsFallback 1 0).length ≠ 4 := by decide

/-- C6 amended: on missing API key, non-JSON response, or
post-sanitization empty result, `generateRewardCards` returns the three
mock cards, exactly one of which (the first) scales its stated damage by
`4 + level`; apart from that card's damage and description the pool is
level-invariant. -/
theorem mock_reward_pool_spec (level : Int) (now : Nat) :
    generateRewardCardsFallback level now = mockGenerateCards level now ∧
    (mockGenerateCards level now).length = 3 ∧
    (mockGenerateCards level now).map ICard.damage = [some (4 + level), none, none] ∧
    (mockGenerateCards level now).map eraseLevelScaledFields =
      (mockGenerateCards 0 now).map eraseLevelScaledFields := by
  refine ⟨rfl, rfl, ?_, ?_⟩
  · simp [mockGenerateCards]
  · simp [mockGenerateCards, eraseLevelScaledFields]


/-- C1: playing an attack card with damage 6 and one hit against an
enemy with 1 stack of vulnerable and 5 block, with player strength 0 and
the player not weak, computes raw damage 6, multiplies by 1.5 (floored)
to 9, absorbs 5 into block, and reduces enemy HP by exactly 4, leaving
enemy block at 0. -/
theorem combat_damage_math (hp : Int) (h : 4 ≤ hp) :
    attackDamagePerHit (createStrike "1") {} { vulnerable := 1 } = 9 ∧
    playCardAttackPhase (createStrike "1") {}
        { currentHp := hp, block := 5, statuses := { vulnerable := 1 } } =
      { currentHp := hp - 4, block := 0, statuses := { vulnerable := 1 } } := by
  constructor
  · decide
  · have hmax : max 0 (hp - (9 - 5)) = hp - 4 := by omega
    simp [playCardAttackPhase, attackDamagePerHit, applyHitToEnemy, createStrike, jsOr,
      hmax, EnemyCombat.mk.injEq]
    omega

/-- Witness for C1 at enemy HP 20: the enemy ends at 16 HP and 0 block. -/
theorem combat_damage_math_witness :
    playCardAttackPhase (createStrike "1") {}
        { currentHp := 20, block := 5, statuses := { vulnerable := 1 } } =
      { currentHp := 20 - 4, block := 0, statuses := { vulnerable := 1 } } :=
  (combat_damage_math 20 (by norm_num)).2

/-- C3: the relic trigger processor, given `start_combat_strength_1` at
the `start_combat` trigger, applies exactly +1 strength to the player;
given `turn_start_apply_poison_3` at the `turn_start` trigger, applies
exactly +3 poison to the enemy; and a relic whose decoded trigger is
`play_attack` never executes its action when a SKILL-type card is played
(the requested trigger is then `play_skill`). -/
theorem relic_trigger_decoding (st : CombatState) (shuffle : List ICard → List ICard)
    (eff : String) (card : ICard) :
    processOneRelic shuffle "start_combat" none "start_combat_strength_1" st =
      some { st with player := { st.player with statuses :=
        { st.player.statuses with strength := st.player.statuses.strength + 1 } } } ∧
    processOneRelic shuffle "turn_start" none "turn_start_apply_poison_3" st =
      some { st with enemy := { st.enemy with statuses :=
        { st.enemy.statuses with poison := st.enemy.statuses.poison + 3 } } } ∧
    ((decodeRelic "play_skill" eff).rTrigger = "play_attack" →
      processOneRelic shuffle "play_skill" (some card) eff st = some st) := by
  refine ⟨?_, ?_, ?_⟩
  · have hdec : decodeRelic "start_combat" "start_combat_strength_1" =
        { rTrigger := "start_combat", rAction := "strength", rAmount := some 1 } := by decide
    have hpre : "play_".data.isPrefixOf "start_combat".data = false := by decide
    simp [processOneRelic, hdec, hpre, executeRelicAction, bumpStatus]
  · have hdec : decodeRelic "turn_start" "turn_start_apply_poison_3" =
        { rTrigger := "turn_start", rAction := "poison", rAmount := some 3 } := by decide
    have hpre : "play_".data.isPrefixOf "turn_start".data = false := by decide
    simp [processOneRelic, hdec, hpre, executeRelicAction, bumpStatus]
  · intro h
    simp [processOneRelic, h]

/-- Witness for C3: a `play_attack_strength_1` relic does not fire when a
SKILL card (Defend) is played. -/
theorem relic_trigger_decoding_witness :
    processOneRelic id "play_skill" (some (createDefend "1")) "play_attack_strength_1"
      ({} : CombatState) = some {} :=
  (relic_trigger_decoding {} id "play_attack_strength_1" (createDefend "1")).2.2 (by decide)

set_option maxHeartbeats 1000000 in
/-- C10: status counters stay non-negative across the status-mutating
operations: the sanitizer clamps status amounts into [1, 50]; adding a
non-negative amount preserves non-negativity; and the end-of-round
decrements of the player vulnerable/weak/frail and enemy
poison/vulnerable/weak counters are guarded by truthiness checks, so a
counter at 0 is never pushed below 0. -/
theorem status_counters_nonneg (s : Statuses) (ty : String) (a : Int) (eff : String)
    (s2 : Statuses) (v : Option Int) :
    (1 ≤ clampNumber v 1 50 1 ∧ clampNumber v 1 50 1 ≤ 50) ∧
    (0 ≤ a → s.NonNeg → (bumpStatus s ty a).NonNeg) ∧
    (s.NonNeg → (∀ g, parsedAmount eff = some g → 0 ≤ g) →
      applyStatusEffect s eff = some s2 → s2.NonNeg) ∧
    (s.NonNeg → (playerTurnEndDecay s).NonNeg) ∧
    (s.NonNeg → (enemyTurnEndDecay s).NonNeg) := by
  have hbump : ∀ (s : Statuses) (ty : String) (a : Int),
      0 ≤ a → s.NonNeg → (bumpStatus s ty a).NonNeg := by
    intro s ty a ha hs
    obtain ⟨h1, h2, h3, h4, h5, h6, h7, h8, h9, h10, h11⟩ := hs
    unfold Statuses.NonNeg bumpStatus
    split_ifs <;> (try dsimp only) <;> omega
  refine ⟨?_, hbump s ty a, ?_, ?_, ?_⟩
  · unfold clampNumber
    cases v <;> simp
  · intro hs hg happ
    have hfreeze : ∀ s : Statuses, s.NonNeg → Statuses.NonNeg { s with freeze := 1 } := by
      intro s hs
      obtain ⟨g1, g2, g3, g4, g5, g6, g7, g8, g9, g10, g11⟩ := hs
      unfold Statuses.NonNeg
      dsimp only
      omega
    have hmap : ∀ (s s2 : Statuses) (rt : String), s.NonNeg →
        Option.map (fun a => bumpStatus s rt a) (parsedAmount eff) = some s2 →
        s2.NonNeg := by
      intro s s2 rt hs happ
      cases hamt : parsedAmount eff with
      | none => rw [hamt] at happ; simp at happ
      | some g =>
        rw [hamt] at happ
        simp at happ
        subst happ
        exact hbump s rt g (hg g hamt) hs
    simp only [applyStatusEffect] at happ
    split_ifs at happ
    all_goals try (obtain rfl := Option.some.inj happ)
    all_goals try exact hs
    all_goals try exact hfreeze s hs
    all_goals exact hmap s s2 _ hs happ
  · intro hs
    obtain ⟨h1, h2, h3, h4, h5, h6, h7, h8, h9, h10, h11⟩ := hs
    unfold Statuses.NonNeg playerTurnEndDecay
    simp only [apply_ite Statuses.strength, apply_ite Statuses.dexterity,
      apply_ite Statuses.vulnerable, apply_ite Statuses.weak, apply_ite Statuses.frail,
      apply_ite Statuses.poison, apply_ite Statuses.burn, apply_ite Statuses.freeze,
      apply_ite Statuses.reflect, apply_ite Statuses.metallicize, apply_ite Statuses.regen,
      ite_self]
    split_ifs <;> omega
  · intro hs
    obtain ⟨h1, h2, h3, h4, h5, h6, h7, h8, h9, h10, h11⟩ := hs
    unfold Statuses.NonNeg enemyTurnEndDecay
    simp only [apply_ite Statuses.strength, apply_ite Statuses.dexterity,
      apply_ite Statuses.vulnerable, apply_ite Statuses.weak, apply_ite Statuses.frail,
      apply_ite Statuses.poison, apply_ite Statuses.burn, apply_ite Statuses.freeze,
      apply_ite Statuses.reflect, apply_ite Statuses.metallicize, apply_ite Statuses.regen,
      ite_self]
    split_ifs <;> omega

/-- Witness for C10: applying the sanitized token `poison_4` to a fresh
status record yields poison 4 and keeps every counter non-negative. -/
theorem status_counters_nonneg_witness :
    applyStatusEffect {} "poison_4" = some { poison := 4 } ∧
    Statuses.NonNeg { poison := 4 } := by
  have h4 : parsedAmount "poison_4" = some (4 : Int) := by decide
  refine ⟨by decide, ?_⟩
  refine (status_counters_nonneg {} "poison" 4 "poison_4" { poison := 4 } none).2.2.1
    (by decide) ?_ (by decide)
  intro g hg
  rw [h4] at hg
  injection hg with h2
  omega


/-- Each `drawLoop` iteration adds at most one card to the hand and never
removes one. -/
theorem drawLoop_hand_bounds (shuffle : List ICard → List ICard) :
    ∀ (n : Nat) (hand draw discard : List ICard),
      hand.length ≤ (drawLoop shuffle n hand draw discard).1.length ∧
      (drawLoop shuffle n hand draw discard).1.length ≤ hand.length + n := by
  intro n
  induction n with
  | zero =>
    intro hand draw discard
    exact ⟨le_refl _, by simp [drawLoop]⟩
  | succ n ih =>
    intro hand draw discard
    simp only [drawLoop]
    split_ifs with hd hdc
    · exact ⟨le_refl _, by dsimp only; omega⟩
    · split
      next c heq =>
        obtain ⟨ha, hb⟩ := ih (hand ++ [c]) (shuffle discard).dropLast []
        simp only [List.length_append, List.length_singleton] at ha hb
        exact ⟨by omega, by omega⟩
      next heq =>
        obtain ⟨ha, hb⟩ := ih hand (shuffle discard) []
        exact ⟨ha, by omega⟩
    · split
      next c heq =>
        obtain ⟨ha, hb⟩ := ih (hand ++ [c]) draw.dropLast discard
        simp only [List.length_append, List.length_singleton] at ha hb
        exact ⟨by omega, by omega⟩
      next heq =>
        obtain ⟨ha, hb⟩ := ih hand draw discard
        exact ⟨ha, by omega⟩

/-- `drawCards` never pushes the hand past `MAX_HAND_SIZE`: the cap
`min count (MAX_HAND_SIZE - hand.length)` bounds the number of drawn
cards by the remaining capacity. -/
theorem drawCards_hand_le (shuffle : List ICard → List ICard) (count : Int)
    (p : PlayerPiles) (h : p.hand.length ≤ MAX_HAND_SIZE) :
    (drawCards shuffle count p).hand.length ≤ MAX_HAND_SIZE := by
  simp only [drawCards]
  split_ifs with h1 h2
  · exact h
  · exact h
  · have hb := (drawLoop_hand_bounds shuffle
      (min count ((MAX_HAND_SIZE : Int) - p.hand.length)).toNat
      p.hand p.drawPile p.discardPile).2
    dsimp only
    omega

/-- `drawCards` never removes cards from the hand. -/
theorem drawCards_hand_mono (shuffle : List ICard → List ICard) (count : Int)
    (p : PlayerPiles) : p.hand.length ≤ (drawCards shuffle count p).hand.length := by
  simp only [drawCards]
  split_ifs with h1 h2
  · exact le_refl _
  · exact le_refl _
  · dsimp only
    exact (drawLoop_hand_bounds shuffle _ p.hand p.drawPile p.discardPile).1

/-- A sequence of draws keeps the hand at or below the cap. -/
theorem foldl_drawCards_le (shuffle : List ICard → List ICard) (draws : List Int)
    (p : PlayerPiles) (h : p.hand.length ≤ MAX_HAND_SIZE) :
    (draws.foldl (fun acc n => drawCards shuffle n acc) p).hand.length ≤ MAX_HAND_SIZE := by
  induction draws generalizing p with
  | nil => exact h
  | cons d rest ih => exact ih _ (drawCards_hand_le shuffle d p h)

/-- A sequence of draws never shrinks the hand. -/
theorem foldl_drawCards_mono (shuffle : List ICard → List ICard) (draws : List Int)
    (p : PlayerPiles) :
    p.hand.length ≤ (draws.foldl (fun acc n => drawCards shuffle n acc) p).hand.length := by
  induction draws generalizing p with
  | nil => exact le_refl _
  | cons d rest ih => exact le_trans (drawCards_hand_mono shuffle d p) (ih _)

/-- After playing a card that was in hand, the hand is strictly below
the cap: the played card's removal always undoes at least one slot, since
the mid-effect draws were themselves capped. -/
theorem playCardPiles_hand_lt (shuffle : List ICard → List ICard) (i : Nat)
    (draws : List Int) (dest : PlayDest) (p : PlayerPiles) (hi : i < p.hand.length)
    (h : p.hand.length ≤ MAX_HAND_SIZE) :
    (playCardPiles shuffle i draws dest p).hand.length + 1 ≤ MAX_HAND_SIZE := by
  have h1 := foldl_drawCards_le shuffle draws p h
  have h2 : i < (draws.foldl (fun acc n => drawCards shuffle n acc) p).hand.length :=
    lt_of_lt_of_le hi (foldl_drawCards_mono shuffle draws p)
  have h3 := List.length_eraseIdx_add_one h2
  unfold playCardPiles
  cases dest <;> cases hidx : p.hand[i]? <;> dsimp only <;> omega

/-- Every hand-affecting transition preserves the hand-size cap; in
particular the fetch/recover confirmation adds its card to a hand that
the preceding card play left strictly below the cap. -/
theorem hand_step_preserves (shuffle : List ICard → List ICard) {p q : PlayerPiles}
    (hstep : HandStep shuffle p q) (h : p.hand.length ≤ MAX_HAND_SIZE) :
    q.hand.length ≤ MAX_HAND_SIZE := by
  cases hstep with
  | draw n => exact drawCards_hand_le shuffle n p h
  | reset d => simp [MAX_HAND_SIZE]
  | play i draws dest hi =>
    have := playCardPiles_hand_lt shuffle i draws dest p hi h
    omega
  | playFetch i draws dest src c hi =>
    have h2 := playCardPiles_hand_lt shuffle i draws dest p hi h
    have hh : (fetchConfirm src c (playCardPiles shuffle i draws dest p)).hand.length =
        (playCardPiles shuffle i draws dest p).hand.length + 1 := by
      cases src <;> simp [fetchConfirm]
    omega
  | endTurn =>
    calc (endTurnEtherealSweep p).hand.length ≤ p.hand.length := by
          dsimp only [endTurnEtherealSweep]
          exact List.length_filter_le _ _
      _ ≤ MAX_HAND_SIZE := h

/-- C4: in every reachable game state the player's hand size never
exceeds 10 (`MAX_HAND_SIZE`): drawing is capped by remaining hand
capacity, and a fetch/recover effect that moves a chosen card into the
hand always follows the removal of the played card, so it never brings
the hand above 10 either. -/
theorem hand_size_invariant (shuffle : List ICard → List ICard) (p : PlayerPiles)
    (h : ReachablePiles shuffle p) : p.hand.length ≤ MAX_HAND_SIZE := by
  unfold ReachablePiles at h
  induction h with
  | refl => simp [MAX_HAND_SIZE]
  | tail _ hstep ih => exact hand_step_preserves shuffle hstep ih

/-- Witness for C4 at the initial (empty-hand) state. -/
theorem hand_size_invariant_witness :
    ({} : PlayerPiles).hand.length ≤ MAX_HAND_SIZE :=
  hand_size_invariant id {} Relation.ReflTransGen.refl

end Spire

namespace Alchemy

/-- C8: whenever `discoverReaction` returns a proposed reaction result,
its `growthChance` never exceeds 0.15 (values above 0.15 are clamped to
0.15), and it returns nothing on a negative determination or an
unparsable response. -/
theorem discover_reaction_clamp (parsed : Option ParsedReactionResponse)
    (res : ReactionResult) :
    (discoverReactionPost parsed = some res →
      ∀ g, res.growthChance = some g → g ≤ 0.15) ∧
    discoverReactionPost none = none ∧
    (∀ d : ParsedReactionResponse, d.reactionOccurred = false →
      discoverReactionPost (some d) = none) ∧
    (∀ d : ParsedReactionResponse, d.result = none →
      discoverReactionPost (some d) = none) := by
  refine ⟨?_, rfl, ?_, ?_⟩
  · intro h g hg
    match parsed with
    | none => simp [discoverReactionPost] at h
    | some data =>
      match hr : data.result with
      | none => simp [discoverReactionPost, hr] at h
      | some r =>
        by_cases ho : data.reactionOccurred
        · simp only [discoverReactionPost, hr, ho, if_true, Option.some.injEq] at h
          subst h
          simp only at hg
          match hrg : r.growthChance with
          | none => simp [hrg] at hg
          | some g0 =>
            simp only [hrg, Option.some.injEq] at hg
            subst hg
            split_ifs <;> [norm_num; linarith [not_lt.mp (by assumption : ¬ g0 > 0.15)]]
        · simp [discoverReactionPost, hr, ho] at h
  · intro d hd
    simp [discoverReactionPost, hd]
    match hr : d.result with
    | none => simp
    | some r => simp
  · intro d hd
    simp [discoverReactionPost, hd]

/-- Witness for C8 at a concrete over-limit response: a model-returned
growthChance of 0.9 is clamped to 0.15, which satisfies the bound. -/
theorem discover_reaction_clamp_witness :
    discoverReactionPost (some sampleOverLimitResponse) = some sampleClampedResult ∧
    (0.15 : ℚ) ≤ 0.15 := by
  have he : discoverReactionPost (some sampleOverLimitResponse) = some sampleClampedResult := by
    norm_num [discoverReactionPost, sampleOverLimitResponse, sampleClampedResult]
  exact ⟨he, (discover_reaction_clamp _ _).1 he 0.15 rfl⟩


/-- `Map.set` followed by `Map.get`: the written key reads back the new
value, every other key is unaffected. -/
theorem cacheLookup_cacheSet (c : List ((Nat × Nat) × Nat)) (k k' : Nat × Nat) (v : Nat) :
    cacheLookup (cacheSet c k' v) k = if k = k' then some v else cacheLookup c k := by
  induction c with
  | nil =>
    simp only [cacheSet, cacheLookup]
    by_cases h : k = k' <;> simp [h, eq_comm]
  | cons e rest ih =>
    by_cases he : e.1 = k'
    · simp only [cacheSet, if_pos he, cacheLookup]
      by_cases hk : k = k' <;> simp [hk, he, eq_comm, cacheLookup]
    · simp only [cacheSet, if_neg he, cacheLookup]
      by_cases hek : e.1 = k
      · have : ¬ k = k' := fun h => he (hek.trans h)
        simp [hek, this]
      · simp [hek, ih]

/-- Membership in `Set.add`. -/
theorem mem_setAdd (s : List (Nat × Nat)) (k k' : Nat × Nat) :
    k ∈ setAdd s k' ↔ k ∈ s ∨ k = k' := by
  unfold setAdd
  split_ifs with h
  · constructor
    · exact fun hm => Or.inl hm
    · rintro (hm | rfl)
      · exact hm
      · exact List.mem_of_elem_eq_true h
  · simp [List.mem_append]

/-- One event preserves "this pair is cached and not pending": only
`queueReaction` ever adds to the pending set, and it never does so for a
cached key; every cache write is a `Map.set`, which never removes an
entry. -/
theorem stepEvent_preserves (s : SimReactState) (ev : SimEvent) (k : Nat × Nat)
    (h1 : (cacheLookup s.cache k).isSome) (h2 : k ∉ s.pending) :
    (cacheLookup (stepEvent s ev).cache k).isSome ∧ k ∉ (stepEvent s ev).pending := by
  cases ev with
  | queue i id1 id2 =>
    simp only [stepEvent, queueReaction]
    by_cases hid : id1 = id2
    · simp [hid, h1, h2]
    · rw [if_neg hid]
      cases hc : cacheLookup s.cache (reactionKey id1 id2) with
      | some res =>
        by_cases hres : res > 0
        · simp [hres, h1, h2]
        · simp [hres, h1, h2]
      | none =>
        split_ifs with hcond
        · refine ⟨h1, ?_⟩
          simp only [mem_setAdd]
          rintro (hm | rfl)
          · exact h2 hm
          · rw [hc] at h1
            simp at h1
        · exact ⟨h1, h2⟩
  | drain k' res =>
    simp only [stepEvent]
    split_ifs with hin hcached
    · exact ⟨h1, fun hm => h2 (List.mem_of_mem_erase hm)⟩
    · refine ⟨?_, fun hm => h2 (List.mem_of_mem_erase hm)⟩
      rw [cacheLookup_cacheSet]
      by_cases hk : k = k' <;> simp [hk, h1]
    · exact ⟨h1, h2⟩
  | drainNewElement k' =>
    simp only [stepEvent]
    split_ifs with hin hcached
    · exact ⟨h1, fun hm => h2 (List.mem_of_mem_erase hm)⟩
    · exact ⟨h1, fun hm => h2 (List.mem_of_mem_erase hm)⟩
    · exact ⟨h1, h2⟩
  | resolveId k' newId =>
    simp only [stepEvent]
    split_ifs with hin
    · refine ⟨?_, h2⟩
      rw [cacheLookup_cacheSet]
      by_cases hk : k = k' <;> simp [hk, h1]
    · exact ⟨h1, h2⟩
  | seedIgnore a b =>
    simp only [stepEvent]
    refine ⟨?_, h2⟩
    rw [cacheLookup_cacheSet]
    by_cases hk : k = reactionKey a b <;> simp [hk, h1]

/-- The cached-and-not-pending property is preserved over any event
sequence. -/
theorem runEvents_preserves (evs : List SimEvent) (s : SimReactState) (k : Nat × Nat)
    (h1 : (cacheLookup s.cache k).isSome) (h2 : k ∉ s.pending) :
    (cacheLookup (runEvents s evs).cache k).isSome ∧ k ∉ (runEvents s evs).pending := by
  induction evs generalizing s with
  | nil => exact ⟨h1, h2⟩
  | cons ev rest ih =>
    have h := stepEvent_preserves s ev k h1 h2
    exact ih (stepEvent s ev) h.1 h.2

/-- C7: once the reaction cache maps a pair key to 0 (a confirmed
non-reaction) and the pair is not pending, no future simulation activity
(adjacency checks, queue drains, id resolutions, pre-seeded ignores) ever
adds the pair to the pending-reaction set again — the key even stays
cached throughout; while a cached positive result makes `queueReaction`
immediately convert the current cell in place to the cached element id
(with mass 1.0). -/
theorem reaction_cache_no_requeue (s : SimReactState) (a b i : Nat)
    (evs : List SimEvent) (r : Nat) :
    (cacheLookup s.cache (reactionKey a b) = some 0 → reactionKey a b ∉ s.pending →
      ((cacheLookup (runEvents s evs).cache (reactionKey a b)).isSome ∧
        reactionKey a b ∉ (runEvents s evs).pending)) ∧
    (a ≠ b → cacheLookup s.cache (reactionKey a b) = some r → 0 < r →
      queueReaction i a b s =
        { s with nextGrid := s.nextGrid.set i r, nextDensity := s.nextDensity.set i 1 }) := by
  constructor
  · intro hc hp
    exact runEvents_preserves evs s (reactionKey a b) (by simp [hc]) hp
  · intro hab hc hr
    simp [queueReaction, hab, hc, hr]

/-- Witness for C7: a pair cached at 0 survives two adjacency checks
without being enqueued, and a pair cached at 5 converts cell 0 in
place. -/
theorem reaction_cache_no_requeue_witness :
    reactionKey 1 2 ∉ (runEvents { cache := [((1, 2), 0)] }
        [SimEvent.queue 0 1 2, SimEvent.queue 5 2 1]).pending ∧
    (queueReaction 0 1 2
        { cache := [((1, 2), 5)], nextGrid := [9, 9], nextDensity := [0, 0] }).nextGrid =
      [5, 9] := by
  constructor
  · exact ((reaction_cache_no_requeue { cache := [((1, 2), 0)] } 1 2 0
      [SimEvent.queue 0 1 2, SimEvent.queue 5 2 1] 0).1 (by decide) (by decide)).2
  · rw [(reaction_cache_no_requeue
      { cache := [((1, 2), 5)], nextGrid := [9, 9], nextDensity := [0, 0] } 1 2 0 [] 5).2
      (by decide) (by decide) (by decide)]
    rfl

end Alchemy

namespace Voyager

/-- C9: for every one of the 8 planet names and "The Sun", the failing
branch of `getPlanetDetails` returns the corresponding fixed non-empty
fallback paragraph from the built-in table, never the generic
communications-down failure string. -/
theorem narration_fallback_complete (name : String) (fb : Option String)
    (h : name ∈ NINE_BODIES) :
    ∃ d, lookupFallback name = some d ∧ d ≠ "" ∧ d ≠ genericFailureMessage ∧
      getPlanetDetailsOnFailure name fb = d := by
  fin_cases h <;> exact ⟨_, rfl, by decide, by decide, rfl⟩

/-- Witness for C9 at the concrete body "Mercury" with no caller-supplied
fallback text. -/
theorem narration_fallback_witness :
    ∃ d, lookupFallback "Mercury" = some d ∧ d ≠ "" ∧ d ≠ genericFailureMessage ∧
      getPlanetDetailsOnFailure "Mercury" none = d :=
  narration_fallback_complete "Mercury" none (by decide)

end Voyager
